import Mathlib

/-!
Shallow embedding of `upup/pkg/fi/cloudup/spotinsttasks/helper.go` (kops,
spotinst task helpers) and proofs about its translation utilities.

Modelling conventions:
- Go pointers (`*string`, `*int32`, `*int64`, `*bool`) become `Option`;
  `nil` is `none`.
- Go `int32`/`int64`/`int` values become `Int`; the conversions
  `int64(int32(v))` and `int(int64(v))` in the source are value-preserving
  on the values that occur, so they are modelled as the identity.
- Go maps (`map[string]*BlockDeviceMapping`) become association lists
  `List (String × _)` updated by `mapSet`, which overwrites an existing
  key and otherwise appends (Go map assignment semantics, one fixed
  iteration order).
- Go `error` values become `GoError`; `fmt.Errorf` becomes
  `GoError.errorf` applied to the formatted message.
- The two external collaborators (`awsup.GetMachineTypeInfo`,
  `cloud.ResolveImage`) are passed in as function arguments, so theorems
  quantify over every possible collaborator behaviour.
- A Go `panic` (nil-pointer dereference) is modelled by an `Option`-valued
  result: `none` is the panic, `some b` a normal return of `b`.
-/

/-- Model of Go `error` values as they occur in this module: the sentinel
produced by `fi.RequiredField`, a message built by `fmt.Errorf`, and an
arbitrary error coming back from an external collaborator. -/
inductive GoError where
  | requiredField (field : String)
  | errorf (msg : String)
  | external (msg : String)
deriving DecidableEq, Repr

/-- Rendering of a `GoError` used when it is interpolated by a `%v` verb. -/
def GoError.errString : GoError → String
  | .requiredField f => "Field is required: " ++ f
  | .errorf m => m
  | .external m => m

/-- `fi.String`: pointer to a fresh copy of the string. -/
def fiString (s : String) : Option String := some s

/-- `fi.StringValue`: dereference with `""` for `nil`. -/
def fiStringValue (s : Option String) : String := s.getD ""

/-- `fi.Int32Value`: dereference with `0` for `nil`. -/
def fiInt32Value (n : Option Int) : Int := n.getD 0

/-- `fi.Int64Value`: dereference with `0` for `nil`. -/
def fiInt64Value (n : Option Int) : Int := n.getD 0

/-- `fi.Bool`: pointer to a fresh copy of the bool. -/
def fiBool (b : Bool) : Option Bool := some b

/-- `fi.Int64` (and `fi.Int`): pointer to a fresh copy of the integer. -/
def fiInt64 (n : Int) : Option Int := some n

/-- Go map assignment `m[k] = v` on an association-list model: overwrite
the entry for `k` when present, otherwise append it. -/
def mapSet {β : Type} (m : List (String × β)) (k : String) (v : β) :
    List (String × β) :=
  if m.any (fun p => p.1 = k) then
    m.map (fun p => if p.1 = k then (k, v) else p)
  else
    m ++ [(k, v)]

/-- `awseg.Tag` (elastigroup API family). -/
structure awseg.Tag where
  Key : Option String := none
  Value : Option String := none
deriving DecidableEq, Repr

/-- `awsoc.Tag` (ocean API family). -/
structure awsoc.Tag where
  Key : Option String := none
  Value : Option String := none
deriving DecidableEq, Repr

/-- `awseg.AutoScaleLabel` (elastigroup API family). -/
structure awseg.AutoScaleLabel where
  Key : Option String := none
  Value : Option String := none
deriving DecidableEq, Repr

/-- `awsoc.Label` (ocean API family). -/
structure awsoc.Label where
  Key : Option String := none
  Value : Option String := none
deriving DecidableEq, Repr

/-- `awsoc.Taint` (ocean API family). -/
structure awsoc.Taint where
  Key : Option String := none
  Value : Option String := none
  Effect : Option String := none
deriving DecidableEq, Repr

/-- `awseg.EBS`: the wire-format EBS sub-record. -/
structure awseg.EBS where
  DeleteOnTermination : Option Bool := none
  VolumeSize : Option Int := none
  VolumeType : Option String := none
  IOPS : Option Int := none
deriving DecidableEq, Repr

/-- `awseg.BlockDeviceMapping`: the wire-format block-device mapping. -/
structure awseg.BlockDeviceMapping where
  DeviceName : Option String := none
  VirtualName : Option String := none
  EBS : Option awseg.EBS := none
deriving DecidableEq, Repr

/-- `awstasks.BlockDeviceMapping` (internal model), restricted to the
fields this module reads or writes. -/
structure awstasks.BlockDeviceMapping where
  VirtualName : Option String := none
  EbsDeleteOnTermination : Option Bool := none
  EbsVolumeSize : Option Int := none
  EbsVolumeType : Option String := none
  EbsVolumeIops : Option Int := none
deriving DecidableEq, Repr

/-- `awstasks.Subnet`, restricted to the `ID` field (the only one this
module reads). -/
structure awstasks.Subnet where
  ID : Option String := none
deriving DecidableEq, Repr

/-- `ec2.Image`, restricted to the `RootDeviceName` field (the only one
this module reads). -/
structure ec2.Image where
  RootDeviceName : Option String := none
deriving DecidableEq, Repr

/-- `RootVolumeOpts` (declared elsewhere in the `spotinsttasks` package),
restricted to the fields `buildRootDevice` reads; the pointer types
`Size *int32`, `Type *string`, `IOPS *int32` are determined by the
`fi.Int32Value` / direct-assignment usage in the source. -/
structure RootVolumeOpts where
  Size : Option Int := none
  «Type» : Option String := none
  IOPS : Option Int := none
deriving DecidableEq, Repr

/-- Modelled from the spec: `awsup.MachineTypeInfo` is not under the source
tree; per §6 the machine-type descriptor "exposes a list of ephemeral
device descriptors, each with a device name and virtual name". -/
structure awsup.EphemeralDevice where
  DeviceName : String
  VirtualName : String
deriving DecidableEq, Repr

/-- Modelled from the spec: the machine-type metadata descriptor returned
by the `GetMachineTypeInfo` collaborator (§6). -/
structure awsup.MachineTypeInfo where
  ephemeralDevices : List awsup.EphemeralDevice
deriving DecidableEq, Repr

/-- `buildElastigroupTags`: one elastigroup `Tag` per map entry. -/
def buildElastigroupTags (tags : List (String × String)) : List awseg.Tag :=
  tags.map (fun kv => { Key := fiString kv.1, Value := fiString kv.2 })

/-- `buildOceanTags`: one ocean `Tag` per map entry. -/
def buildOceanTags (tags : List (String × String)) : List awsoc.Tag :=
  tags.map (fun kv => { Key := fiString kv.1, Value := fiString kv.2 })

/-- `buildAutoScaleLabels`: one elastigroup `AutoScaleLabel` per map entry. -/
def buildAutoScaleLabels (labels : List (String × String)) :
    List awseg.AutoScaleLabel :=
  labels.map (fun kv => { Key := fiString kv.1, Value := fiString kv.2 })

/-- `buildOceanLabels`: one ocean `Label` per map entry. -/
def buildOceanLabels (labels : List (String × String)) : List awsoc.Label :=
  labels.map (fun kv => { Key := fiString kv.1, Value := fiString kv.2 })

/-- `buildEphemeralDevices`: fails with `fi.RequiredField("InstanceType")`
when the instance-type name is `nil`; otherwise asks the
`awsup.GetMachineTypeInfo` collaborator (passed as an argument) and
propagates its error unchanged; on success keys a mapping holding only the
virtual name under each ephemeral device name. -/
def buildEphemeralDevices
    (getMachineTypeInfo : String → Except GoError awsup.MachineTypeInfo)
    (instanceTypeName : Option String) :
    Except GoError (List (String × awstasks.BlockDeviceMapping)) :=
  match instanceTypeName with
  | none => .error (.requiredField "InstanceType")
  | some name =>
    match getMachineTypeInfo name with
    | .error err => .error err
    | .ok instanceType =>
      .ok (instanceType.ephemeralDevices.foldl
        (fun m ed => mapSet m ed.DeviceName { VirtualName := fiString ed.VirtualName })
        [])

/-- Go's `%q` verb on the image names occurring here: the string wrapped in
double quotes. -/
def goQuote (s : String) : String := "\"" ++ s ++ "\""

/-- `resolveImage`: wraps a collaborator failure in a
"spotinst: unable to resolve image ..." message, synthesizes the same
message with "not found" when the collaborator returns success with no
image, and otherwise returns the image. The `cloud.ResolveImage`
collaborator is passed as an argument. -/
def resolveImage (cloudResolveImage : String → Except GoError (Option ec2.Image))
    (name : String) : Except GoError ec2.Image :=
  match cloudResolveImage name with
  | .error err =>
    .error (.errorf ("spotinst: unable to resolve image " ++ goQuote name ++ ": "
      ++ err.errString))
  | .ok none =>
    .error (.errorf ("spotinst: unable to resolve image " ++ goQuote name ++ ": not found"))
  | .ok (some image) => .ok image

/-- `buildRootDevice`: resolves the image, then builds one mapping keyed by
the image's root device name with delete-on-termination forced to `true`,
the size and type from the options, and IOPS only when specified and the
type is not `"gp2"`. -/
def buildRootDevice (cloudResolveImage : String → Except GoError (Option ec2.Image))
    (imageID : Option String) (opts : RootVolumeOpts) :
    Except GoError (List (String × awstasks.BlockDeviceMapping)) :=
  match resolveImage cloudResolveImage (fiStringValue imageID) with
  | .error err => .error err
  | .ok image =>
    let rootDeviceName := fiStringValue image.RootDeviceName
    let base : awstasks.BlockDeviceMapping :=
      { EbsDeleteOnTermination := fiBool true
        EbsVolumeSize := fiInt64 (fiInt32Value opts.Size)
        EbsVolumeType := opts.«Type» }
    let rootDeviceMapping :=
      if opts.IOPS ≠ none ∧ fiStringValue opts.«Type» ≠ "gp2" then
        { base with EbsVolumeIops := fiInt64 (fiInt32Value opts.IOPS) }
      else base
    .ok (mapSet [] rootDeviceName rootDeviceMapping)

/-- `buildBlockDeviceMapping`: copies device and virtual names, attaches an
EBS sub-record only when one of delete-on-termination, volume size or
volume type is set, and then includes IOPS only when specified and the
volume type is not `"gp2"`. -/
def buildBlockDeviceMapping (deviceName : String) (i : awstasks.BlockDeviceMapping) :
    awseg.BlockDeviceMapping :=
  let o : awseg.BlockDeviceMapping :=
    { DeviceName := fiString deviceName, VirtualName := i.VirtualName }
  if i.EbsDeleteOnTermination ≠ none ∨ i.EbsVolumeSize ≠ none ∨ i.EbsVolumeType ≠ none then
    let ebs : awseg.EBS :=
      { DeleteOnTermination := i.EbsDeleteOnTermination
        VolumeSize := fiInt64 (fiInt64Value i.EbsVolumeSize)
        VolumeType := i.EbsVolumeType }
    let ebs' :=
      if i.EbsVolumeIops ≠ none ∧ fiStringValue i.EbsVolumeType ≠ "gp2" then
        { ebs with IOPS := fiInt64 (fiInt64Value i.EbsVolumeIops) }
      else ebs
    { o with EBS := some ebs' }
  else o

/-!
Model of `regexp.FindStringSubmatch` for the constant pattern
`(?P<Key>.+)\=(?P<Value>.+)\:(?P<Effect>.+)` under Go's leftmost-first
(Perl-like, greedy) semantics. The model lets `.` match every character;
Go's `.` excludes the newline character, so the model coincides with the
source exactly on inputs that contain no newline (every well-formed
Kubernetes taint string). On such inputs `.` matches every character of
the input, so a match exists starting at a later index only if one exists
starting at index 0; hence the leftmost match always starts at index 0,
and the final greedy `.+` extends the match to the end of the string. The
backtracking order is: the Key group tries the longest prefix first (so
the match uses the last `=` that still admits a non-empty Value, a `:`
and a non-empty Effect), and within the remainder the Value group tries
the longest prefix first (so the match uses the last `:` that leaves a
non-empty Effect). `searchEq`/`searchColon` implement exactly this
search, from the highest candidate position downward.
-/

/-- Try to split `r` as `value ++ ":" ++ effect` at position `j`: requires
`r` to carry `':'` at `j`, a non-empty value (`1 ≤ j`) and a non-empty
effect (`j + 2 ≤ r.length`). -/
def tryColonAt (r : List Char) (j : Nat) : Option (List Char × List Char) :=
  if r.get? j = some ':' ∧ 1 ≤ j ∧ j + 2 ≤ r.length then
    some (r.take j, r.drop (j + 1))
  else none

/-- Greedy search for the Value/Effect split: highest colon position first. -/
def searchColon (r : List Char) : Nat → Option (List Char × List Char)
  | 0 => none
  | j + 1 =>
    match tryColonAt r (j + 1) with
    | some x => some x
    | none => searchColon r j

/-- Try to split `s` as `key ++ "=" ++ rest` at position `k` (non-empty key),
then greedily split the rest into value and effect. -/
def tryEqAt (s : List Char) (k : Nat) : Option (List Char × List Char × List Char) :=
  if s.get? k = some '=' ∧ 1 ≤ k then
    match searchColon (s.drop (k + 1)) (s.drop (k + 1)).length with
    | some (v, e) => some (s.take k, v, e)
    | none => none
  else none

/-- Greedy search for the Key split: highest `=` position first. -/
def searchEq (s : List Char) : Nat → Option (List Char × List Char × List Char)
  | 0 => none
  | k + 1 =>
    match tryEqAt s (k + 1) with
    | some x => some x
    | none => searchEq s k

/-- The submatches (Key, Value, Effect) of the taint pattern on `s`, or
`none` when the pattern does not match. -/
def findTaintMatch (s : List Char) : Option (List Char × List Char × List Char) :=
  searchEq s s.length

/-- `buildOceanTaints`: parses each string against the taint pattern, fills
the three named groups when the pattern matches, and appends the taint
only when all three fields were set; a non-matching string is dropped
silently. `regexp.Compile` of the constant pattern always succeeds, so
the function never returns an error. -/
def buildOceanTaints (taints : List String) : Except GoError (List awsoc.Taint) :=
  .ok (taints.filterMap fun t =>
    let taint : awsoc.Taint :=
      match findTaintMatch t.toList with
      | some (k, v, e) =>
        { Key := fiString (String.mk k), Value := fiString (String.mk v)
          Effect := fiString (String.mk e) }
      | none => { Key := none, Value := none, Effect := none }
    if taint.Key ≠ none ∧ taint.Value ≠ none ∧ taint.Effect ≠ none then some taint
    else none)

/-- Modelled from the spec: `utils.StringSlicesEqualIgnoreOrder` is not
under the source tree; per §4.6 it "compares the two identifier sets for
equality ignoring order and ignoring duplicates' multiplicity (set
semantics, not sequence semantics)". -/
def StringSlicesEqualIgnoreOrder (l r : List String) : Bool :=
  l.all (fun x => decide (x ∈ r)) && r.all (fun x => decide (x ∈ l))

/-- The left-side loop of `subnetSlicesEqualIgnoreOrder`: dereference each
subnet's `ID` in order; `none` models the nil-pointer panic at the first
unset identifier. -/
def derefIDs : List awstasks.Subnet → Option (List String)
  | [] => some []
  | s :: t =>
    match s.ID, derefIDs t with
    | some id, some ids => some (id :: ids)
    | _, _ => none

/-- `subnetSlicesEqualIgnoreOrder`: dereferences every left-side `ID`
without a nil check (a nil there is the modelled panic, `none`); a
nil right-side `ID` short-circuits to `false`; otherwise compares the two
identifier collections with `StringSlicesEqualIgnoreOrder`. -/
def subnetSlicesEqualIgnoreOrder (l r : List awstasks.Subnet) : Option Bool :=
  match derefIDs l with
  | none => none
  | some lIDs =>
    if r.all (fun s => s.ID.isSome) then
      some (StringSlicesEqualIgnoreOrder lIDs (r.filterMap (fun s => s.ID)))
    else
      some false

/-- A machine-type metadata collaborator that always fails with an
external error, used to exercise the error-propagation contracts. -/
def getInfoBoom : String → Except GoError awsup.MachineTypeInfo :=
  fun _ => .error (.external "boom")

/-- An image-resolution collaborator that always fails with an external
error, used to exercise the error-propagation contracts. -/
def resolveBoom : String → Except GoError (Option ec2.Image) :=
  fun _ => .error (.external "boom")

/-- An image-resolution collaborator that always resolves to an image
whose root device name is `/dev/xvda`. -/
def resolveXvda : String → Except GoError (Option ec2.Image) :=
  fun _ => .ok (some { RootDeviceName := some "/dev/xvda" })


/-- C6: `buildEphemeralDevices` with a nil instance-type identifier always
returns the `RequiredField("InstanceType")` error, and the result does not
depend on the machine-type metadata collaborator (it is the same for every
pair of collaborators), so the collaborator is never consulted. -/
theorem buildEphemeralDevices_nil_instanceType
    (f g : String → Except GoError awsup.MachineTypeInfo) :
    buildEphemeralDevices f none = .error (.requiredField "InstanceType") ∧
    buildEphemeralDevices f none = buildEphemeralDevices g none :=
  ⟨rfl, rfl⟩

/-- C4: `buildBlockDeviceMapping` copies the device and virtual names,
attaches an EBS sub-record exactly when one of delete-on-termination,
volume size or volume type is set (IOPS alone does not trigger it), and
when attached includes IOPS exactly when the input IOPS is set and the
volume type is not "gp2". -/
theorem buildBlockDeviceMapping_shape (deviceName : String)
    (i : awstasks.BlockDeviceMapping) :
    (buildBlockDeviceMapping deviceName i).DeviceName = some deviceName ∧
    (buildBlockDeviceMapping deviceName i).VirtualName = i.VirtualName ∧
    (¬((buildBlockDeviceMapping deviceName i).EBS = none) ↔
      (i.EbsDeleteOnTermination ≠ none ∨ i.EbsVolumeSize ≠ none ∨
        i.EbsVolumeType ≠ none)) ∧
    (∀ ebs, (buildBlockDeviceMapping deviceName i).EBS = some ebs →
      (ebs.IOPS ≠ none ↔
        (i.EbsVolumeIops ≠ none ∧ fiStringValue i.EbsVolumeType ≠ "gp2"))) := by
  unfold buildBlockDeviceMapping
  split_ifs with h1 h2 <;> simp_all [fiString, fiInt64]

/-- Witness for C4 at a concrete input: with only IOPS set to 3000 no EBS
sub-record is attached, and with volume type "gp2" plus IOPS 3000 the
attached sub-record carries no IOPS. -/
theorem buildBlockDeviceMapping_shape_witness :
    (buildBlockDeviceMapping "/dev/sdb"
        { EbsVolumeIops := some 3000 }).EBS = none ∧
    ({ DeleteOnTermination := none, VolumeSize := some 0, VolumeType := some "gp2",
        IOPS := none } : awseg.EBS).IOPS = none := by
  constructor
  · have h := buildBlockDeviceMapping_shape "/dev/sdb" { EbsVolumeIops := some 3000 }
    by_contra hne
    exact absurd (h.2.2.1.mp hne) (by decide)
  · have h := buildBlockDeviceMapping_shape "/dev/sdb"
      { EbsVolumeType := some "gp2", EbsVolumeIops := some 3000 }
    have h4 := h.2.2.2
      { DeleteOnTermination := none, VolumeSize := some 0, VolumeType := some "gp2",
        IOPS := none } (by decide)
    by_contra hne
    exact absurd (h4.mp hne) (by decide)

/-- C10: whenever `buildBlockDeviceMapping` attaches an EBS sub-record,
its volume size is always populated (the nil input size is coerced to 0),
while delete-on-termination and volume type are passed through unchanged
(and so stay absent when nil). -/
theorem buildBlockDeviceMapping_ebs_fields (deviceName : String)
    (i : awstasks.BlockDeviceMapping)
    (h : i.EbsDeleteOnTermination ≠ none ∨ i.EbsVolumeSize ≠ none ∨
      i.EbsVolumeType ≠ none) :
    ((buildBlockDeviceMapping deviceName i).EBS.map awseg.EBS.VolumeSize)
        = some (some (fiInt64Value i.EbsVolumeSize)) ∧
    ((buildBlockDeviceMapping deviceName i).EBS.map awseg.EBS.DeleteOnTermination)
        = some i.EbsDeleteOnTermination ∧
    ((buildBlockDeviceMapping deviceName i).EBS.map awseg.EBS.VolumeType)
        = some i.EbsVolumeType := by
  unfold buildBlockDeviceMapping
  by_cases hi : i.EbsVolumeIops ≠ none ∧ fiStringValue i.EbsVolumeType ≠ "gp2" <;>
    simp [h, hi, fiInt64]

/-- Witness for C10 at a concrete input: delete-on-termination set, size
nil — the attached sub-record has size 0 and nil type. -/
theorem buildBlockDeviceMapping_ebs_fields_witness :
    (({ EbsDeleteOnTermination := some true } : awstasks.BlockDeviceMapping).EbsDeleteOnTermination
        ≠ none ∨
      ({ EbsDeleteOnTermination := some true } : awstasks.BlockDeviceMapping).EbsVolumeSize
        ≠ none ∨
      ({ EbsDeleteOnTermination := some true } : awstasks.BlockDeviceMapping).EbsVolumeType
        ≠ none) ∧
    ((buildBlockDeviceMapping "/dev/sda"
        { EbsDeleteOnTermination := some true }).EBS.map awseg.EBS.VolumeSize)
      = some (some 0) ∧
    ((buildBlockDeviceMapping "/dev/sda"
        { EbsDeleteOnTermination := some true }).EBS.map awseg.EBS.VolumeType)
      = some none := by
  have h := buildBlockDeviceMapping_ebs_fields "/dev/sda"
    { EbsDeleteOnTermination := some true } (by decide)
  exact ⟨by decide, h.1, h.2.2⟩

/-- C1 (and §4.3): when image resolution succeeds, `buildRootDevice`
returns exactly one mapping, keyed by the resolved image's root device
name, with delete-on-termination forced to `true`, size and type taken
from the options (the nil size dereferencing to 0), and IOPS present
exactly when the options specify IOPS and the volume type is not "gp2". -/
theorem buildRootDevice_single_mapping
    (cloudResolveImage : String → Except GoError (Option ec2.Image))
    (imageID : Option String) (opts : RootVolumeOpts) (image : ec2.Image)
    (himg : resolveImage cloudResolveImage (fiStringValue imageID) = .ok image) :
    buildRootDevice cloudResolveImage imageID opts =
      .ok [(fiStringValue image.RootDeviceName,
        { VirtualName := none
          EbsDeleteOnTermination := some true
          EbsVolumeSize := some (fiInt32Value opts.Size)
          EbsVolumeType := opts.«Type»
          EbsVolumeIops :=
            if opts.IOPS ≠ none ∧ fiStringValue opts.«Type» ≠ "gp2" then
              some (fiInt32Value opts.IOPS)
            else none })] := by
  unfold buildRootDevice
  rw [himg]
  by_cases hc : opts.IOPS ≠ none ∧ fiStringValue opts.«Type» ≠ "gp2" <;>
    simp [hc, mapSet, fiBool, fiInt64]

/-- Witness for C1 at concrete inputs: with type "io1" and IOPS 3000 the
mapping carries IOPS 3000; with type "gp2" and IOPS 3000 it carries none. -/
theorem buildRootDevice_single_mapping_witness :
    resolveImage resolveXvda (fiStringValue (some "ami-1"))
        = .ok { RootDeviceName := some "/dev/xvda" } ∧
    buildRootDevice resolveXvda (some "ami-1")
        { Size := some 64, «Type» := some "io1", IOPS := some 3000 } =
      .ok [("/dev/xvda",
        { VirtualName := none, EbsDeleteOnTermination := some true,
          EbsVolumeSize := some 64, EbsVolumeType := some "io1",
          EbsVolumeIops := some 3000 })] ∧
    buildRootDevice resolveXvda (some "ami-1")
        { Size := some 64, «Type» := some "gp2", IOPS := some 3000 } =
      .ok [("/dev/xvda",
        { VirtualName := none, EbsDeleteOnTermination := some true,
          EbsVolumeSize := some 64, EbsVolumeType := some "gp2",
          EbsVolumeIops := none })] := by
  refine ⟨rfl, ?_, ?_⟩
  · exact buildRootDevice_single_mapping resolveXvda (some "ami-1")
      { Size := some 64, «Type» := some "io1", IOPS := some 3000 }
      { RootDeviceName := some "/dev/xvda" } rfl
  · exact buildRootDevice_single_mapping resolveXvda (some "ami-1")
      { Size := some 64, «Type» := some "gp2", IOPS := some 3000 }
      { RootDeviceName := some "/dev/xvda" } rfl

/-- C3 counterexample: the claim says `buildRootDevice` returns the
image-resolution collaborator's error as-is; on a collaborator failing
with the external error "boom" it instead returns the wrapped
"spotinst: unable to resolve image ..." message, which differs from the
collaborator's error. -/
theorem buildRootDevice_error_not_as_is :
    buildRootDevice resolveBoom (some "img") {} =
      .error (.errorf "spotinst: unable to resolve image \"img\": boom") ∧
    GoError.errorf "spotinst: unable to resolve image \"img\": boom" ≠
      GoError.external "boom" :=
  ⟨rfl, by decide⟩

/-- C3 (amended): `buildEphemeralDevices` propagates the machine-type
metadata collaborator's error unchanged, while `buildRootDevice` wraps the
image-resolution collaborator's error in a descriptive
"spotinst: unable to resolve image ..." message rather than returning it
as-is. -/
theorem collaborator_error_propagation :
    (∀ (getMachineTypeInfo : String → Except GoError awsup.MachineTypeInfo)
        (name : String) (e : GoError),
      getMachineTypeInfo name = .error e →
      buildEphemeralDevices getMachineTypeInfo (some name) = .error e) ∧
    (∀ (cloudResolveImage : String → Except GoError (Option ec2.Image))
        (imageID : Option String) (opts : RootVolumeOpts) (e : GoError),
      cloudResolveImage (fiStringValue imageID) = .error e →
      buildRootDevice cloudResolveImage imageID opts =
        .error (.errorf ("spotinst: unable to resolve image "
          ++ goQuote (fiStringValue imageID) ++ ": " ++ e.errString))) := by
  constructor
  · intro getMachineTypeInfo name e h
    simp [buildEphemeralDevices, h]
  · intro cloudResolveImage imageID opts e h
    simp [buildRootDevice, resolveImage, h]

/-- Witness for C3 (amended) at concrete collaborators that fail with the
external error "boom". -/
theorem collaborator_error_propagation_witness :
    buildEphemeralDevices getInfoBoom (some "c5.large") = .error (.external "boom") ∧
    buildRootDevice resolveBoom (some "img") {} =
      .error (.errorf "spotinst: unable to resolve image \"img\": boom") := by
  constructor
  · exact collaborator_error_propagation.1 getInfoBoom "c5.large" (.external "boom") rfl
  · exact collaborator_error_propagation.2 resolveBoom (some "img") {} (.external "boom") rfl

/-- C7: `buildOceanTaints` never returns an error; a string on which the
taint pattern does not match is dropped silently while the surrounding
entries are still processed; and the well-formed entry
"dedicated=true:NoSchedule" yields exactly the record
{key:"dedicated", value:"true", effect:"NoSchedule"}. -/
theorem buildOceanTaints_silent_drop :
    (∀ ts : List String, ∃ l, buildOceanTaints ts = .ok l) ∧
    (∀ (pre post : List String) (bad : String),
      findTaintMatch bad.toList = none →
      buildOceanTaints (pre ++ bad :: post) = buildOceanTaints (pre ++ post)) ∧
    buildOceanTaints ["dedicated=true:NoSchedule"] =
      .ok [{ Key := some "dedicated", Value := some "true",
             Effect := some "NoSchedule" }] := by
  refine ⟨fun ts => ⟨_, rfl⟩, ?_, rfl⟩
  intro pre post bad h
  have h' : findTaintMatch bad.data = none := h
  simp [buildOceanTaints, h']

/-- Witness for C7 at a concrete input: dropping the non-matching string
"malformed" leaves the result of the surrounding entries unchanged. -/
theorem buildOceanTaints_silent_drop_witness :
    findTaintMatch "malformed".toList = none ∧
    buildOceanTaints ["dedicated=true:NoSchedule", "malformed", "foo=bar:NoExecute"] =
      buildOceanTaints ["dedicated=true:NoSchedule", "foo=bar:NoExecute"] :=
  ⟨rfl, buildOceanTaints_silent_drop.2.1 ["dedicated=true:NoSchedule"]
    ["foo=bar:NoExecute"] "malformed" rfl⟩

/-- C8: each of the four tag/label mappers returns one record per map
entry (so exactly N records for N unique keys), the records' (key, value)
pairs are exactly the entries of the input map, and the empty map yields
the empty sequence. -/
theorem tag_label_mappers_entries (m : List (String × String))
    (_hkeys : (m.map Prod.fst).Nodup) :
    ((buildElastigroupTags m).length = m.length ∧
      ∀ k v, ({ Key := some k, Value := some v } : awseg.Tag) ∈
        buildElastigroupTags m ↔ (k, v) ∈ m) ∧
    ((buildOceanTags m).length = m.length ∧
      ∀ k v, ({ Key := some k, Value := some v } : awsoc.Tag) ∈
        buildOceanTags m ↔ (k, v) ∈ m) ∧
    ((buildAutoScaleLabels m).length = m.length ∧
      ∀ k v, ({ Key := some k, Value := some v } : awseg.AutoScaleLabel) ∈
        buildAutoScaleLabels m ↔ (k, v) ∈ m) ∧
    ((buildOceanLabels m).length = m.length ∧
      ∀ k v, ({ Key := some k, Value := some v } : awsoc.Label) ∈
        buildOceanLabels m ↔ (k, v) ∈ m) ∧
    (buildElastigroupTags [] = [] ∧ buildOceanTags [] = [] ∧
      buildAutoScaleLabels [] = [] ∧ buildOceanLabels [] = []) := by
  refine ⟨⟨by simp [buildElastigroupTags], ?_⟩, ⟨by simp [buildOceanTags], ?_⟩,
    ⟨by simp [buildAutoScaleLabels], ?_⟩, ⟨by simp [buildOceanLabels], ?_⟩,
    rfl, rfl, rfl, rfl⟩ <;>
  · intro k v
    constructor
    · intro hmem
      simp only [buildElastigroupTags, buildOceanTags, buildAutoScaleLabels,
        buildOceanLabels, List.mem_map, fiString] at hmem
      obtain ⟨⟨a, b⟩, hab, heq⟩ := hmem
      cases heq
      exact hab
    · intro hmem
      simp only [buildElastigroupTags, buildOceanTags, buildAutoScaleLabels,
        buildOceanLabels, List.mem_map, fiString]
      exact ⟨(k, v), hmem, rfl⟩

/-- Witness for C8 at a concrete two-entry map. -/
theorem tag_label_mappers_entries_witness :
    ([("k1", "v1"), ("k2", "v2")].map Prod.fst).Nodup ∧
    (buildElastigroupTags [("k1", "v1"), ("k2", "v2")]).length = 2 ∧
    (({ Key := some "k2", Value := some "v2" } : awsoc.Tag) ∈
      buildOceanTags [("k1", "v1"), ("k2", "v2")]) ∧
    buildOceanLabels [] = [] := by
  have h := tag_label_mappers_entries [("k1", "v1"), ("k2", "v2")] (by decide)
  exact ⟨by decide, h.1.1, (h.2.1.2 "k2" "v2").mpr (by decide), rfl⟩

/-- Helper: when every left-side identifier is set, the left loop of the
comparator collects exactly the identifiers, in order. -/
theorem derefIDs_eq_filterMap (l : List awstasks.Subnet)
    (h : ∀ s ∈ l, s.ID ≠ none) :
    derefIDs l = some (l.filterMap (fun s => s.ID)) := by
  induction l with
  | nil => rfl
  | cons a t ih =>
    obtain ⟨x, hx⟩ := Option.ne_none_iff_exists'.mp (h a (List.mem_cons_self a t))
    have ht := ih (fun s hs => h s (List.mem_cons_of_mem a hs))
    simp [derefIDs, hx, ht, List.filterMap_cons]

/-- Helper: an unset left-side identifier makes the left loop panic
(modelled as `none`). -/
theorem derefIDs_none (l : List awstasks.Subnet) (h : ∃ s ∈ l, s.ID = none) :
    derefIDs l = none := by
  induction l with
  | nil => simp at h
  | cons a t ih =>
    rcases h with ⟨s, hs, hnone⟩
    rcases List.mem_cons.mp hs with rfl | hmem
    · simp [derefIDs, hnone]
    · have ht := ih ⟨s, hmem, hnone⟩
      cases ha : s.ID
      · cases hb : a.ID <;> simp [derefIDs, hb, ht]
      · exact absurd hnone (by simp [ha])

/-- C9: the comparator's handling of missing identifiers is asymmetric —
an unset identifier on the right yields `some false` (not-equal), while an
unset identifier on the left is dereferenced without a nil check and
panics (modelled as `none`), regardless of the right sequence. -/
theorem subnetSlicesEqualIgnoreOrder_asymmetry :
    (∀ l r : List awstasks.Subnet,
      (∀ s ∈ l, s.ID ≠ none) → (∃ s ∈ r, s.ID = none) →
      subnetSlicesEqualIgnoreOrder l r = some false) ∧
    (∀ l r : List awstasks.Subnet, (∃ s ∈ l, s.ID = none) →
      subnetSlicesEqualIgnoreOrder l r = none) := by
  constructor
  · intro l r hl hr
    have hall : r.all (fun s => s.ID.isSome) = false := by
      rcases hr with ⟨s, hs, hnone⟩
      simp only [List.all_eq_false]
      exact ⟨s, hs, by simp [hnone]⟩
    simp [subnetSlicesEqualIgnoreOrder, derefIDs_eq_filterMap l hl, hall]
  · intro l r hl
    simp [subnetSlicesEqualIgnoreOrder, derefIDs_none l hl]

/-- Witness for C9 at concrete inputs: `[{id:"a"}]` vs `[{id:nil}]` is
`some false`, and `[{id:nil}]` vs `[{id:"a"}]` panics (`none`). -/
theorem subnetSlicesEqualIgnoreOrder_asymmetry_witness :
    subnetSlicesEqualIgnoreOrder [{ ID := some "a" }] [{ ID := none }] = some false ∧
    subnetSlicesEqualIgnoreOrder [{ ID := none }] [{ ID := some "a" }] = none := by
  constructor
  · exact subnetSlicesEqualIgnoreOrder_asymmetry.1 _ _ (by decide)
      ⟨{ ID := none }, by decide, rfl⟩
  · exact subnetSlicesEqualIgnoreOrder_asymmetry.2 _ _
      ⟨{ ID := none }, by decide, rfl⟩

/-- C5: on inputs whose identifier collections are both defined (the
left-side condition is presupposed by the claim's "the two identifier
collections"; the left-nil behaviour is settled separately under C9), the
comparator returns `true` exactly when the two identifier collections are
equal as sets — ignoring order and ignoring duplicates' multiplicity. -/
theorem subnetSlicesEqualIgnoreOrder_set_semantics
    (l r : List awstasks.Subnet)
    (hl : ∀ s ∈ l, s.ID ≠ none) (hr : ∀ s ∈ r, s.ID ≠ none) :
    (subnetSlicesEqualIgnoreOrder l r = some true ↔
      ∀ x, x ∈ l.filterMap (fun s => s.ID) ↔ x ∈ r.filterMap (fun s => s.ID)) := by
  have hall : r.all (fun s => s.ID.isSome) = true := by
    simp only [List.all_eq_true]
    intro s hs
    exact Option.ne_none_iff_isSome.mp (hr s hs)
  simp only [subnetSlicesEqualIgnoreOrder, derefIDs_eq_filterMap l hl, hall,
    if_true, StringSlicesEqualIgnoreOrder, Option.some.injEq, Bool.and_eq_true,
    List.all_eq_true, decide_eq_true_eq]
  constructor
  · intro h x
    exact ⟨fun hx => h.1 x hx, fun hx => h.2 x hx⟩
  · intro h
    exact ⟨fun x hx => (h x).mp hx, fun x hx => (h x).mpr hx⟩

/-- Witness for C5 at concrete inputs: order is ignored, and a duplicated
identifier on one side compares equal to the deduplicated other side. -/
theorem subnetSlicesEqualIgnoreOrder_set_semantics_witness :
    subnetSlicesEqualIgnoreOrder [{ ID := some "a" }, { ID := some "b" }]
        [{ ID := some "b" }, { ID := some "a" }] = some true ∧
    subnetSlicesEqualIgnoreOrder [{ ID := some "a" }, { ID := some "a" }, { ID := some "b" }]
        [{ ID := some "a" }, { ID := some "b" }] = some true := by
  constructor
  · exact (subnetSlicesEqualIgnoreOrder_set_semantics _ _ (by decide) (by decide)).mpr
      (by intro x; simp [List.filterMap_cons]; try tauto)
  · exact (subnetSlicesEqualIgnoreOrder_set_semantics _ _ (by decide) (by decide)).mpr
      (by intro x; simp [List.filterMap_cons]; try tauto)

/-- Unpacking a successful colon split. -/
theorem tryColonAt_eq_some (r : List Char) (j : Nat) (v e : List Char)
    (h : tryColonAt r j = some (v, e)) :
    r.get? j = some ':' ∧ 1 ≤ j ∧ j + 2 ≤ r.length ∧
      v = r.take j ∧ e = r.drop (j + 1) := by
  rw [tryColonAt] at h
  split_ifs at h with hc
  · obtain ⟨h1, h2, h3⟩ := hc
    simp only [Option.some.injEq, Prod.mk.injEq] at h
    exact ⟨h1, h2, h3, h.1.symm, h.2.symm⟩

/-- A position satisfying all three guards yields a colon split. -/
theorem tryColonAt_pos (r : List Char) (j : Nat)
    (hget : r.get? j = some ':') (h1 : 1 ≤ j) (h2 : j + 2 ≤ r.length) :
    tryColonAt r j = some (r.take j, r.drop (j + 1)) := by
  rw [tryColonAt, if_pos]
  exact ⟨hget, h1, h2⟩

/-- A successful colon search returns the split at the highest viable
position: no strictly later position within the fuel is viable. -/
theorem searchColon_isSome_max (r : List Char) (n : Nat) (x : List Char × List Char)
    (h : searchColon r n = some x) :
    ∃ j, 1 ≤ j ∧ j ≤ n ∧ tryColonAt r j = some x ∧
      ∀ j', j < j' → j' ≤ n → tryColonAt r j' = none := by
  induction n with
  | zero => exact Option.noConfusion h
  | succ m ih =>
    cases hc : tryColonAt r (m + 1) with
    | some y =>
      have h' : some y = some x := by rw [searchColon, hc] at h; exact h
      injection h' with h'
      subst h'
      refine ⟨m + 1, by omega, le_refl _, hc, fun j' hj1 hj2 => ?_⟩
      exact absurd (lt_of_lt_of_le hj1 hj2) (lt_irrefl _)
    | none =>
      have h' : searchColon r m = some x := by rw [searchColon, hc] at h; exact h
      obtain ⟨j, h1, h2, h3, h4⟩ := ih h'
      refine ⟨j, h1, le_trans h2 (Nat.le_succ m), h3, fun j' hj1 hj2 => ?_⟩
      by_cases hje : j' = m + 1
      · rw [hje]; exact hc
      · exact h4 j' hj1 (by omega)

/-- A viable colon position within the fuel makes the colon search succeed. -/
theorem searchColon_complete (r : List Char) (n j : Nat) (x : List Char × List Char)
    (hj : j ≤ n) (h : tryColonAt r j = some x) :
    searchColon r n ≠ none := by
  induction n with
  | zero =>
    have hj0 : j = 0 := Nat.le_zero.mp hj
    subst hj0
    rw [tryColonAt] at h
    simp at h
  | succ m ih =>
    intro hnone
    cases hc : tryColonAt r (m + 1) with
    | some y =>
      rw [searchColon, hc] at hnone
      exact Option.noConfusion hnone
    | none =>
      by_cases hje : j = m + 1
      · subst hje
        rw [h] at hc
        exact Option.noConfusion hc
      · have hm : searchColon r m = none := by rw [searchColon, hc] at hnone; exact hnone
        exact ih (by omega) hm

/-- Unpacking a successful key split. -/
theorem tryEqAt_eq_some (s : List Char) (k : Nat)
    (x : List Char × List Char × List Char) (h : tryEqAt s k = some x) :
    s.get? k = some '=' ∧ 1 ≤ k ∧
      ∃ v e, searchColon (s.drop (k + 1)) (s.drop (k + 1)).length = some (v, e) ∧
        x = (s.take k, v, e) := by
  rw [tryEqAt] at h
  split_ifs at h with hc
  · obtain ⟨h1, h2⟩ := hc
    cases hsc : searchColon (s.drop (k + 1)) (s.drop (k + 1)).length with
    | none => rw [hsc] at h; exact Option.noConfusion h
    | some ve =>
      obtain ⟨v, e⟩ := ve
      rw [hsc] at h
      have h' : some (s.take k, v, e) = some x := h
      injection h' with h'
      exact ⟨h1, h2, v, e, rfl, h'.symm⟩

/-- A key position whose guards hold, with a successful colon search on the
remainder, is viable. -/
theorem tryEqAt_ne_none (s : List Char) (k : Nat)
    (hget : s.get? k = some '=') (h1 : 1 ≤ k)
    (hsc : searchColon (s.drop (k + 1)) (s.drop (k + 1)).length ≠ none) :
    tryEqAt s k ≠ none := by
  rw [tryEqAt, if_pos ⟨hget, h1⟩]
  rcases hc : searchColon (s.drop (k + 1)) (s.drop (k + 1)).length with _ | ⟨v, e⟩
  · exact absurd hc hsc
  · simp

/-- A successful key search returns the split at the highest viable
position: no strictly later position within the fuel is viable. -/
theorem searchEq_isSome_max (s : List Char) (n : Nat)
    (x : List Char × List Char × List Char) (h : searchEq s n = some x) :
    ∃ k, 1 ≤ k ∧ k ≤ n ∧ tryEqAt s k = some x ∧
      ∀ k', k < k' → k' ≤ n → tryEqAt s k' = none := by
  induction n with
  | zero => exact Option.noConfusion h
  | succ m ih =>
    cases hc : tryEqAt s (m + 1) with
    | some y =>
      have h' : some y = some x := by rw [searchEq, hc] at h; exact h
      injection h' with h'
      subst h'
      refine ⟨m + 1, by omega, le_refl _, hc, fun k' hk1 hk2 => ?_⟩
      exact absurd (lt_of_lt_of_le hk1 hk2) (lt_irrefl _)
    | none =>
      have h' : searchEq s m = some x := by rw [searchEq, hc] at h; exact h
      obtain ⟨k, h1, h2, h3, h4⟩ := ih h'
      refine ⟨k, h1, le_trans h2 (Nat.le_succ m), h3, fun k' hk1 hk2 => ?_⟩
      by_cases hke : k' = m + 1
      · rw [hke]; exact hc
      · exact h4 k' hk1 (by omega)

/-- Splitting a list at a known character position. -/
theorem list_split_at (r : List Char) (j : Nat) (c : Char) (h : r.get? j = some c) :
    r = r.take j ++ c :: r.drop (j + 1) := by
  obtain ⟨hj, hget⟩ := List.get?_eq_some.mp h
  conv_lhs => rw [← List.take_append_drop j r]
  rw [List.drop_eq_get_cons hj, hget]

/-- C2 (amended): on any successful match of the taint pattern the input
decomposes as `key ++ "=" ++ value ++ ":" ++ effect` with all three
segments non-empty, and the match is greedy on both group boundaries: the
chosen `:` is the last one that leaves a non-empty effect (so `:` cannot
occur in the effect except possibly as its final character), and the
chosen `=` is the last one that still admits a value/effect split (so `=`
cannot occur in the value except possibly as its final character). In
particular the key is the segment before the *last* usable `=` — not the
first — and may itself contain `=` and `:`. The input is assumed free of
newline characters, the domain on which the regex model coincides with
Go's `.` (which excludes newline). -/
theorem findTaintMatch_greedy (s k v e : List Char) (_hnl : '\n' ∉ s)
    (h : findTaintMatch s = some (k, v, e)) :
    s = k ++ '=' :: (v ++ ':' :: e) ∧ k ≠ [] ∧ v ≠ [] ∧ e ≠ [] ∧
      '=' ∉ v.dropLast ∧ ':' ∉ e.dropLast := by
  obtain ⟨K, hK1, hKn, hKtry, hKmax⟩ := searchEq_isSome_max s s.length _ h
  obtain ⟨hKget, -, v', e', hsc, hx⟩ := tryEqAt_eq_some s K _ hKtry
  simp only [Prod.mk.injEq] at hx
  obtain ⟨hk, hv, he⟩ := hx
  subst hk hv he
  obtain ⟨hKlt, -⟩ := List.get?_eq_some.mp hKget
  obtain ⟨J, hJ1, hJn, hJtry, hJmax⟩ := searchColon_isSome_max _ _ _ hsc
  obtain ⟨hJget, -, hJlen, hv', he'⟩ := tryColonAt_eq_some _ _ _ _ hJtry
  subst hv' he'
  obtain ⟨hJlt, -⟩ := List.get?_eq_some.mp hJget
  have hrlen : (s.drop (K + 1)).length = s.length - (K + 1) := List.length_drop _ _
  have hJglobal : s.get? (K + 1 + J) = some ':' := by
    rw [← List.get?_drop]
    exact hJget
  refine ⟨?_, ?_, ?_, ?_, ?_, ?_⟩
  · conv_lhs => rw [list_split_at s K '=' hKget,
      list_split_at (s.drop (K + 1)) J ':' hJget]
  · intro hemp
    rcases List.take_eq_nil_iff.mp hemp with h0 | h0
    · omega
    · rw [h0] at hKlt
      simp at hKlt
  · intro hemp
    rcases List.take_eq_nil_iff.mp hemp with h0 | h0
    · omega
    · rw [h0] at hJlt
      simp at hJlt
  · intro hemp
    have := List.drop_eq_nil_iff_le.mp hemp
    omega
  · intro hmem
    rw [List.dropLast_eq_take] at hmem
    obtain ⟨i, hi⟩ := List.mem_iff_get?.mp hmem
    obtain ⟨hilt, -⟩ := List.get?_eq_some.mp hi
    simp only [List.length_take, List.length_drop] at hilt
    have hiJ : i < J - 1 := by omega
    have hi2 : ((s.drop (K + 1)).take J).get? i = some '=' := by
      rw [List.get?_take (by simp only [List.length_take, List.length_drop]; omega)] at hi
      exact hi
    have hi3 : (s.drop (K + 1)).get? i = some '=' := by
      rw [List.get?_take (by omega)] at hi2
      exact hi2
    have hsglobal : s.get? (K + 1 + i) = some '=' := by
      rw [List.get?_drop] at hi3
      exact hi3
    have hcolget : (s.drop (K + 1 + i + 1)).get? (J - 1 - i) = some ':' := by
      rw [List.get?_drop]
      have harith : K + 1 + i + 1 + (J - 1 - i) = K + 1 + J := by omega
      rw [harith]
      exact hJglobal
    have htrycol := tryColonAt_pos (s.drop (K + 1 + i + 1)) (J - 1 - i) hcolget
      (by omega) (by rw [List.length_drop]; omega)
    have hscne := searchColon_complete (s.drop (K + 1 + i + 1))
      ((s.drop (K + 1 + i + 1)).length) (J - 1 - i) _
      (by rw [List.length_drop]; omega) htrycol
    have hne := tryEqAt_ne_none s (K + 1 + i) hsglobal (by omega) hscne
    exact hne (hKmax (K + 1 + i) (by omega) (by omega))
  · intro hmem
    rw [List.dropLast_eq_take] at hmem
    obtain ⟨i, hi⟩ := List.mem_iff_get?.mp hmem
    obtain ⟨hilt, -⟩ := List.get?_eq_some.mp hi
    simp only [List.length_take, List.length_drop] at hilt
    have hie : i < s.length - (K + 1) - (J + 1) - 1 := by omega
    have hi2 : ((s.drop (K + 1)).drop (J + 1)).get? i = some ':' := by
      rw [List.get?_take (by simp only [List.length_take, List.length_drop]; omega)] at hi
      exact hi
    have hi3 : (s.drop (K + 1)).get? (J + 1 + i) = some ':' := by
      rw [List.get?_drop] at hi2
      exact hi2
    have htry := tryColonAt_pos (s.drop (K + 1)) (J + 1 + i) hi3
      (by omega) (by omega)
    have hnone := hJmax (J + 1 + i) (by omega) (by omega)
    rw [hnone] at htry
    exact Option.noConfusion htry

/-- Witness for C2 (amended) at the concrete input "a=b=c:d": the match
succeeds with key "a=b", value "c", effect "d", and the decomposition and
greedy-exclusion properties hold there. -/
theorem findTaintMatch_greedy_witness :
    ('\n' ∉ "a=b=c:d".toList) ∧
    findTaintMatch "a=b=c:d".toList =
      some ("a=b".toList, "c".toList, "d".toList) ∧
    ("a=b=c:d".toList =
        "a=b".toList ++ '=' :: ("c".toList ++ ':' :: "d".toList) ∧
      "a=b".toList ≠ [] ∧ "c".toList ≠ [] ∧ "d".toList ≠ [] ∧
      '=' ∉ "c".toList.dropLast ∧ ':' ∉ "d".toList.dropLast) :=
  ⟨by decide, rfl, findTaintMatch_greedy _ _ _ _ (by decide) rfl⟩

/-- C2 counterexample: the claim says the key is the segment before the
first `=`, which on "a=b=c:d" would be "a"; the parser instead yields key
"a=b" (greedy: the last usable `=` wins), value "c", effect "d". -/
theorem buildOceanTaints_first_eq_counterexample :
    buildOceanTaints ["a=b=c:d"] =
      .ok [{ Key := some "a=b", Value := some "c", Effect := some "d" }] ∧
    (some "a=b" : Option String) ≠ some "a" :=
  ⟨rfl, by decide⟩
